import Mathlib

/-!
Verification of the `scgolang/exec` process-group supervisor.

The Go sources are shallowly embedded: Go byte strings become `List Nat`
(each element a byte value), fallible calls return `Except`, the sqlite
store becomes explicit lists of rows with transactions as buffered
mutation lists, and the external OS primitives (process launch, signal,
wait) become oracles passed in as parameters.  Go runtime panics (nil
pointer dereference, index out of range) are modelled by an explicit
`Outcome.panics` constructor, since they are observably different from
returning an error.

Concurrency is modelled by arrival streams: each per-process observer
goroutine reports on a shared channel pair, and a `Wait`/`Remove` style
fan-in is a fold over the list of events in their arrival order.
-/

set_option maxRecDepth 20000

deriving instance DecidableEq for Except

namespace Exec

/-! ### Bytes

Go strings are byte slices; `ascii` renders the ASCII literals appearing in
tests and in this development as byte lists. -/

def ascii (s : String) : List Nat := s.data.map Char.toNat

/-! ### SHA-256

Executable model of the external `crypto/sha256` primitive used by
`GetCmdID` (FIPS 180-4).  Validated against the standard test vectors for
the empty string and "abc". -/

def w32 : Nat := 4294967296

def rotr32 (n x : Nat) : Nat := ((x >>> n) ||| (x <<< (32 - n))) % w32

def shaS0 (x : Nat) : Nat := (rotr32 7 x) ^^^ (rotr32 18 x) ^^^ (x >>> 3)

def shaS1 (x : Nat) : Nat := (rotr32 17 x) ^^^ (rotr32 19 x) ^^^ (x >>> 10)

def shaE0 (x : Nat) : Nat := (rotr32 2 x) ^^^ (rotr32 13 x) ^^^ (rotr32 22 x)

def shaE1 (x : Nat) : Nat := (rotr32 6 x) ^^^ (rotr32 11 x) ^^^ (rotr32 25 x)

def shaCh (e f g : Nat) : Nat := (e &&& f) ^^^ ((e ^^^ 4294967295) &&& g)

def shaMaj (a b c : Nat) : Nat := (a &&& b) ^^^ (a &&& c) ^^^ (b &&& c)

def shaH0 : List Nat :=
  [1779033703, 3144134277, 1013904242,
   2773480762, 1359893119, 2600822924,
   528734635, 1541459225]

def shaK : List Nat :=
  [1116352408, 1899447441, 3049323471,
   3921009573, 961987163, 1508970993,
   2453635748, 2870763221, 3624381080,
   310598401, 607225278, 1426881987,
   1925078388, 2162078206, 2614888103,
   3248222580, 3835390401, 4022224774,
   264347078, 604807628, 770255983,
   1249150122, 1555081692, 1996064986,
   2554220882, 2821834349, 2952996808,
   3210313671, 3336571891, 3584528711,
   113926993, 338241895, 666307205,
   773529912, 1294757372, 1396182291,
   1695183700, 1986661051, 2177026350,
   2456956037, 2730485921, 2820302411,
   3259730800, 3345764771, 3516065817,
   3600352804, 4094571909, 275423344,
   430227734, 506948616, 659060556,
   883997877, 958139571, 1322822218,
   1537002063, 1747873779, 1955562222,
   2024104815, 2227730452, 2361852424,
   2428436474, 2756734187, 3204031479,
   3329325298]

def beBytes (k n : Nat) : List Nat :=
  (List.range k).map (fun i => (n >>> (8 * (k - 1 - i))) % 256)

def shaPad (msg : List Nat) : List Nat :=
  msg ++ 128 :: List.replicate ((119 - (msg.length % 64)) % 64) 0 ++ beBytes 8 (8 * msg.length)

def beWord (bs : List Nat) : Nat := bs.foldl (fun acc b => acc * 256 + b) 0

def chunksOfAux (n : Nat) : Nat → List Nat → List (List Nat)
  | 0, _ => []
  | _, [] => []
  | fuel + 1, a :: t => (a :: t).take (n + 1) :: chunksOfAux n fuel ((a :: t).drop (n + 1))

def chunksOf (n : Nat) (l : List Nat) : List (List Nat) :=
  chunksOfAux n l.length l

def scheduleStep (w : List Nat) : List Nat :=
  let i := w.length
  w ++ [(w.getD (i - 16) 0 + shaS0 (w.getD (i - 15) 0) + w.getD (i - 7) 0
          + shaS1 (w.getD (i - 2) 0)) % w32]

def schedule (w16 : List Nat) : List Nat :=
  (List.range 48).foldl (fun w _ => scheduleStep w) w16

def roundStep (st : List Nat) (kw : Nat × Nat) : List Nat :=
  match st with
  | [a, b, c, d, e, f, g, h] =>
    let t1 := (h + shaE1 e + shaCh e f g + kw.1 + kw.2) % w32
    let t2 := (shaE0 a + shaMaj a b c) % w32
    [(t1 + t2) % w32, a, b, c, (d + t1) % w32, e, f, g]
  | other => other

def compress (h : List Nat) (block : List Nat) : List Nat :=
  let ws := schedule ((chunksOf 3 block).map beWord)
  let st := (List.zip shaK ws).foldl roundStep h
  (List.zip h st).map (fun p => (p.1 + p.2) % w32)

def sha256 (msg : List Nat) : List Nat :=
  (((chunksOf 63 (shaPad msg)).foldl compress shaH0).map (beBytes 4)).flatten

def hexChar (n : Nat) : Char := "0123456789abcdef".data.getD n '0'

def hexOfBytes (bs : List Nat) : String :=
  ⟨bs.foldr (fun b acc => hexChar (b / 16) :: hexChar (b % 16) :: acc) []⟩

/-! ### Commands and command identity

From `src/groups.go` (`GetCmdID`, `s2b`).  An `exec.Cmd` is modelled by the
fields `GetCmdID` and the persistence layer consume: `Path`, `Args`, `Env`.
-/

/-- The relevant fields of Go's `exec.Cmd`: executable path, argument list
(argument 0 conventionally the program name), environment assignments. -/
structure Cmd where
  path : List Nat
  args : List (List Nat)
  env : List (List Nat)
deriving DecidableEq, Repr

/-- Errors.  Go's `error` interface, specialised to the two shapes the
package produces: a plain message (`errors.New` / `errors.Wrap*`), and
`CmdError` (`src/error.go`, `src/groups.go`), which carries the command
that produced it. -/
inductive Err where
  | msg : String → Err
  | cmdErr : Cmd → String → Err
deriving DecidableEq, Repr

/-- The `Error()` string of an error value. -/
def Err.text : Err → String
  | .msg s => s
  | .cmdErr _ s => s

/-- Model of `errors.Wrap(err, m)`: message becomes `m ++ ": " ++ err.Error()`
and the dynamic type of the wrapped error is hidden. -/
def wrap (m : String) (e : Err) : Err := .msg (m ++ ": " ++ e.text)

/-- Model of `bytes.Join(xs, []byte{0x20})`: interleave a single space byte. -/
def sepJoin : List (List Nat) → List Nat
  | [] => []
  | [x] => x
  | x :: y :: rest => x ++ 32 :: sepJoin (y :: rest)

/-- The byte string hashed by `GetCmdID` (`src/groups.go:500`):
`bytes.Join([][]byte{join(args), join(env)}, " ")`. -/
def cmdIDPreimage (c : Cmd) : List Nat :=
  sepJoin [sepJoin c.args, sepJoin c.env]

/-- The derived identity: lowercase hex of the SHA-256 of the preimage. -/
def cmdIDStr (c : Cmd) : String := hexOfBytes (sha256 (cmdIDPreimage c))

/-- Model of `GetCmdID` (`src/groups.go:500-512`).  The source checks the
error of `h.Write`, but `hash.Hash`'s `Write` contractually never returns
an error, so that branch is dead and the function always succeeds. -/
def GetCmdID (c : Cmd) : Except Err String := .ok (cmdIDStr c)

/-! ### The Group supervisor

From `src/group.go` (and, where noted, the revision in
`src/unnamed/part_001`).  The OS is an oracle: `signal pid` is the result
of `Process.Signal(SIGKILL)` for the process with that pid (errors carry
the `Error()` string), `waitFor pid` the result of `cmd.Wait()`. -/

/-- OS oracle for the termination primitives. -/
structure Os where
  signal : Nat → Except String Unit
  waitFor : Nat → Except String Unit

/-- A started command: the definition plus the OS process id assigned by the
launch primitive (`cmd.Process.Pid`). -/
structure PCmd where
  cmd : Cmd
  pid : Nat
deriving DecidableEq, Repr

/-- Live state of a `Group` (`src/group.go:14-18`): the registered command
slice, plus a count of observer goroutines spawned by `Start` (the
channels themselves are modelled as event streams at the `Wait` calls). -/
structure Group where
  cmds : List PCmd
  observers : Nat
deriving DecidableEq, Repr

/-- Model of `NewGroup` (`src/group.go:22-28`). -/
def NewGroup : Group := { cmds := [], observers := 0 }

/-- Model of `isAlreadyFinished` (`src/group.go:138-140`):
`strings.HasSuffix(err.Error(), "process already finished")`. -/
def isAlreadyFinished (e : String) : Bool :=
  ("process already finished".data).isSuffixOf e.data

/-- Model of `Group.Start` (`src/group.go:74-91`).  `launch` is the launch
primitive's verdict for `cmd.Start()`: an error, or the assigned pid.  On
success the command is appended to the live set and one observer goroutine
is spawned; on failure nothing is registered. -/
def Group.Start (g : Group) (c : Cmd) (launch : Except String Nat) :
    Except Err Unit × Group :=
  match launch with
  | .error e => (.error (wrap "starting command" (.msg e)), g)
  | .ok pid =>
    (.ok (), { cmds := g.cmds ++ [{ cmd := c, pid := pid }],
               observers := g.observers + 1 })

/-- Model of `Group.Stop` (`src/group.go:94-120`).  The scan keeps the
non-matching commands (in order) and remembers the last matching one; the
trimmed slice is only written back on the normal signal-then-wait path. -/
def Group.Stop (g : Group) (os : Os) (pid : Nat) : Except Err Unit × Group :=
  let kept := g.cmds.filter (fun cc => cc.pid != pid)
  match (g.cmds.filter (fun cc => cc.pid == pid)).getLast? with
  | none => (.error (.msg ("process " ++ toString pid ++ " not found")), g)
  | some c =>
    match os.signal c.pid with
    | .error e =>
      if isAlreadyFinished e then
        (.ok (), g)
      else
        (.error (wrap "sending kill signal" (.msg e)), g)
    | .ok _ =>
      match os.waitFor c.pid with
      | .error e => (.error (wrap "waiting for process to finish" (.msg e)), g)
      | .ok _ => (.ok (), { g with cmds := kept })

/-- Loop body of `Group.Remove` (`src/group.go:37-60`).  Iterates over the
snapshot of `g.cmds` taken when the range started, threading the group
state mutated by `Stop`; the final assignment `g.cmds = cmds` installs the
kept list. -/
def Group.RemoveGo (os : Os) (ids : List String) :
    Group → List PCmd → List PCmd → Except Err Unit × Group
  | st, [], kept => (.ok (), { st with cmds := kept })
  | st, c :: rest, kept =>
    match GetCmdID c.cmd with
    | .error e => (.error (wrap "getting command ID" e), st)
    | .ok cid =>
      if ids.contains cid then
        match Group.Stop st os c.pid with
        | (.ok _, st2) => Group.RemoveGo os ids st2 rest kept
        | (.error e, st2) =>
          (.error (wrap ("stopping process PID=" ++ toString c.pid) e), st2)
      else
        Group.RemoveGo os ids st rest (kept ++ [c])

/-- Model of `Group.Remove` (`src/group.go:37-60`): stop and drop the
commands whose derived identity is listed; keep the rest. -/
def Group.Remove (g : Group) (os : Os) (commandIDs : List String) :
    Except Err Unit × Group :=
  Group.RemoveGo os commandIDs g g.cmds []

/-- One message on the `done`/`errch` channel pair of the `Remove` revision
in `src/unnamed/part_001`. -/
inductive StopEvent where
  | done : StopEvent
  | errEv : String → StopEvent
deriving DecidableEq, Repr

/-- Fan-in loop of the `part_001` `Remove`: drain one message per distinct
pid, collecting error messages; an exhausted stream models the
2-second-timeout branch. -/
def drainStops : Nat → List StopEvent → List String → Except String (List String)
  | 0, _, errs => .ok errs
  | _ + 1, [], _ => .error "timeout"
  | n + 1, .done :: evs, errs => drainStops n evs errs
  | n + 1, .errEv m :: evs, errs => drainStops n evs (errs ++ [m])

/-- Model of `strings.Join(errs, ", and ")`. -/
def joinAnd : List String → String
  | [] => ""
  | [x] => x
  | x :: y :: rest => x ++ ", and " ++ joinAnd (y :: rest)

/-- Model of the `Remove` revision in `src/unnamed/part_001` (lines 60-113),
the variant with the `cmds ...*exec.Cmd` signature that `Groups.removeTx`
calls.  With no arguments it stops every process in the group.  `arrival`
is the merged arrival order of the stop goroutines' messages. -/
def Group.RemoveCmds (g : Group) (cmds : List PCmd) (arrival : List StopEvent) :
    Except Err Unit × Group :=
  let stopping := if cmds.isEmpty then g.cmds else cmds
  let pm := (stopping.map (fun c => c.pid)).dedup
  match drainStops pm.length arrival [] with
  | .error _ => (.error (.msg "timeout"), g)
  | .ok errs =>
    if errs.length > 0 then
      (.error (.msg (joinAnd errs)), g)
    else
      (.ok (), { g with cmds := g.cmds.filter (fun cc => !(pm.contains cc.pid)) })

/-- One message on a `Group`'s `done`/`errors` channel pair: an observer
reporting normal completion of its command, or a `CmdError`. -/
inductive GEvent where
  | done : Cmd → GEvent
  | errEv : Cmd → String → GEvent
deriving DecidableEq, Repr

/-- Whether an event is a normal completion. -/
def GEvent.isDone : GEvent → Bool
  | .done _ => true
  | .errEv _ _ => false

/-- Fan-in loop of `Group.Wait` (`src/group.go:124-136`): one select round
per registered command; a round with no available event models the
`time.After` branch firing.  Returns the result together with the events
left undrained. -/
def Group.WaitDrain (timeoutStr : String) :
    Nat → List GEvent → Except Err Unit × List GEvent
  | 0, evs => (.ok (), evs)
  | _ + 1, [] => (.error (.msg ("timeout after " ++ timeoutStr)), [])
  | n + 1, .done _ :: evs => Group.WaitDrain timeoutStr n evs
  | _ + 1, .errEv c m :: evs => (.error (.cmdErr c m), evs)

/-- Model of `Group.Wait` (`src/group.go:124-136`): drains as many events
as there are commands registered at the moment of the call. -/
def Group.Wait (g : Group) (timeoutStr : String) (evs : List GEvent) :
    Except Err Unit × List GEvent :=
  Group.WaitDrain timeoutStr g.cmds.length evs

/-! ### The durable store

The relations manipulated by `src/groups.go`, with rows in insertion
order.  Row order of a sqlite scan without `ORDER BY` is modelled as
insertion order.  A transaction is a buffer of pending mutations:
`tx.Exec` appends to the buffer, `Commit` applies it, `Rollback` discards
it; `db.Exec` applies to the store immediately, outside any buffer. -/

/-- A row of the `processes` table as inserted by `insertCmd`. -/
structure ProcRow where
  command_id : String
  group_name : String
  process_id : Nat
deriving DecidableEq, Repr

/-- A row of `command_args` (`src/sql/createTables.sql`). -/
structure ArgRow where
  command_id : String
  idx : Nat
  arg : List Nat
deriving DecidableEq, Repr

/-- A row of `command_env` (`src/sql/createTables.sql`); the value column
is named `env_var` in every DDL revision under `src/`. -/
structure EnvRow where
  command_id : String
  idx : Nat
  env_var : List Nat
deriving DecidableEq, Repr

/-- The durable store. -/
structure Store where
  processes : List ProcRow
  command_args : List ArgRow
  command_env : List EnvRow
deriving DecidableEq, Repr

def emptyStore : Store := { processes := [], command_args := [], command_env := [] }

/-- Columns of `command_args` per `src/sql/createTables.sql`. -/
def commandArgsColumns : List String := ["command_id", "idx", "arg"]

/-- Columns of `command_env` per `src/sql/createTables.sql`. -/
def commandEnvColumns : List String := ["command_id", "idx", "env_var"]

/-- Modelled from the spec: the durable relation holding one row per
persisted command.  `src/groups.go` inserts into, deletes from and joins
against `processes(command_id, group_name, process_id)`, but no DDL
revision under `src/` declares that table with those columns; the spec's
schema (§6, `commands(command_id, group_name)` plus the per-process id
kept in the log) fixes the intended column set, which matches every use
in `src/groups.go`. -/
def processesColumns : List String := ["command_id", "group_name", "process_id"]

/-- Column lists named by the INSERT statements in `src/groups.go`. -/
def insertCmdQueryColumns : List String := ["command_id", "group_name", "process_id"]

def insertCmdArgsQueryColumns : List String := ["command_id", "idx", "arg"]

/-- Note the mismatch: the statement (`src/groups.go:463`) names `env`,
the table's column is `env_var`. -/
def insertCmdEnvQueryColumns : List String := ["command_id", "idx", "env"]

/-- Sqlite's check of an INSERT's column list against the table schema. -/
def sqlInsertCheck (table : String) (stmt schema : List String) : Except String Unit :=
  match stmt.find? (fun c => !(schema.contains c)) with
  | some c => .error ("table " ++ table ++ " has no column named " ++ c)
  | none => .ok ()

/-- A buffered transaction mutation. -/
inductive Mutation where
  | insertProcess : ProcRow → Mutation
  | insertArgs : List ArgRow → Mutation
  | insertEnv : List EnvRow → Mutation
deriving DecidableEq, Repr

def applyMutation (s : Store) : Mutation → Store
  | .insertProcess r => { s with processes := s.processes ++ [r] }
  | .insertArgs rs => { s with command_args := s.command_args ++ rs }
  | .insertEnv rs => { s with command_env := s.command_env ++ rs }

/-- A transaction: the pending mutation buffer. -/
structure Tx where
  pending : List Mutation
deriving DecidableEq, Repr

def Tx.commit (tx : Tx) (s : Store) : Store := tx.pending.foldl applyMutation s

/-- The `(command_id, idx, arg)` rows built by `insertCmdArgs`. -/
def argRowsFrom (cid : String) : Nat → List (List Nat) → List ArgRow
  | _, [] => []
  | i, a :: rest => { command_id := cid, idx := i, arg := a } :: argRowsFrom cid (i + 1) rest

/-- The `(command_id, idx, env)` rows built by `insertCmdEnv`. -/
def envRowsFrom (cid : String) : Nat → List (List Nat) → List EnvRow
  | _, [] => []
  | i, a :: rest => { command_id := cid, idx := i, env_var := a } :: envRowsFrom cid (i + 1) rest

/-- Model of `insertCmdArgs` (`src/groups.go:442-459`). -/
def insertCmdArgs (tx : Tx) (cid : String) (args : List (List Nat)) : Except Err Tx :=
  match sqlInsertCheck "command_args" insertCmdArgsQueryColumns commandArgsColumns with
  | .error e => .error (wrap "inserting command arguments" (.msg e))
  | .ok _ => .ok { pending := tx.pending ++ [.insertArgs (argRowsFrom cid 0 args)] }

/-- Model of `insertCmdEnv` (`src/groups.go:461-478`).  Because the
statement names the nonexistent column `env`, sqlite rejects it. -/
def insertCmdEnv (tx : Tx) (cid : String) (env : List (List Nat)) : Except Err Tx :=
  match sqlInsertCheck "command_env" insertCmdEnvQueryColumns commandEnvColumns with
  | .error e => .error (wrap "inserting command env" (.msg e))
  | .ok _ => .ok { pending := tx.pending ++ [.insertEnv (envRowsFrom cid 0 env)] }

/-- Model of `insertCmd` (`src/groups.go:421-440`): one `processes` row,
then the argument rows if any, then the environment rows if any, all
buffered on the transaction. -/
def insertCmd (tx : Tx) (groupName : String) (c : Cmd) (pid : Nat) : Except Err Tx :=
  match GetCmdID c with
  | .error e => .error (wrap "getting command ID" e)
  | .ok cid =>
    match sqlInsertCheck "processes" insertCmdQueryColumns processesColumns with
    | .error e => .error (wrap "inserting command" (.msg e))
    | .ok _ =>
      let tx1 : Tx :=
        { pending := tx.pending ++
            [.insertProcess { command_id := cid, group_name := groupName, process_id := pid }] }
      match (if c.args.length > 0 then insertCmdArgs tx1 cid c.args else .ok tx1) with
      | .error e => .error (wrap "inserting command args" e)
      | .ok tx2 =>
        if c.env.length > 0 then
          match insertCmdEnv tx2 cid c.env with
          | .error e => .error (wrap "inserting command environment" e)
          | .ok tx3 => .ok tx3
        else .ok tx2

/-- Model of the DELETE built by `removeTx` (`src/groups.go:358-376`):
`WHERE group_name = ?` when no commands are passed, otherwise
`WHERE group_name = ? AND (process_id = ? OR ...)`. -/
def deleteProcessesQuery (s : Store) (groupName : String) (pids : List Nat) : Store :=
  if pids.isEmpty then
    { s with processes := s.processes.filter (fun r => !(r.group_name == groupName)) }
  else
    { s with processes :=
        s.processes.filter (fun r => !(r.group_name == groupName && pids.contains r.process_id)) }

/-- A Go computation that may end in a runtime panic instead of returning. -/
inductive Outcome (α : Type) where
  | panics : String → Outcome α
  | returns : α → Outcome α
deriving DecidableEq, Repr

/-- The row stream of the `getGroupProcesses` query (`src/groups.go:224-231`):
`processes LEFT JOIN command_args LEFT JOIN command_env` on `command_id`,
filtered on `group_name`, producing `(command_id, arg, env_var)` with SQL
NULL as `none`. -/
def joinRows (s : Store) (groupName : String) :
    List (String × Option (List Nat) × Option (List Nat)) :=
  (s.processes.filter (fun p => p.group_name == groupName)).flatMap (fun p =>
    let as := s.command_args.filter (fun a => a.command_id == p.command_id)
    let es := s.command_env.filter (fun e => e.command_id == p.command_id)
    let argCol : List (Option (List Nat)) :=
      if as.isEmpty then [none] else as.map (fun a => some a.arg)
    let envCol : List (Option (List Nat)) :=
      if es.isEmpty then [none] else es.map (fun e => some e.env_var)
    argCol.flatMap (fun a => envCol.map (fun e => (p.command_id, a, e))))

/-- The per-command accumulator in `getGroupProcessesTx`'s `commandsMap`. -/
structure AccCmd where
  args : List (List Nat)
  env : List (List Nat)
deriving DecidableEq, Repr

/-- Update the entry with the given key. -/
def assocUpdate (m : List (String × AccCmd)) (k : String) (f : AccCmd → AccCmd) :
    List (String × AccCmd) :=
  m.map (fun p => if p.1 == k then (p.1, f p.2) else p)

/-- One scan iteration of `getGroupProcessesTx` (`src/groups.go:244-263`):
create the map entry on first sight of a command id, then append the arg
and env values when they are non-NULL. -/
def collectStep (m : List (String × AccCmd))
    (r : String × Option (List Nat) × Option (List Nat)) : List (String × AccCmd) :=
  let m1 := if m.any (fun p => p.1 == r.1) then m else m ++ [(r.1, { args := [], env := [] })]
  assocUpdate m1 r.1 (fun acc =>
    { args := acc.args ++ r.2.1.toList, env := acc.env ++ r.2.2.toList })

def collectRows (rows : List (String × Option (List Nat) × Option (List Nat))) :
    List (String × AccCmd) :=
  rows.foldl collectStep []

/-- Model of `getGroupProcessesTx` (`src/groups.go:235-276`).  The final
loop rebuilds each command as `exec.Command(cmd.Args[0], cmd.Args[1:]...)`,
which indexes `Args[0]` (a runtime panic when no argument row came back)
and drops the collected environment entirely.  Go's map iteration order is
unspecified; the model fixes first-insertion order, and the theorems below
only use order-insensitive consequences. -/
def getGroupProcessesTx (s : Store) (groupName : String) : Outcome (List Cmd) :=
  let entries := collectRows (joinRows s groupName)
  if entries.any (fun p => p.2.args.isEmpty) then
    .panics "runtime error: index out of range [0] with length 0"
  else
    .returns (entries.map (fun p =>
      { path := p.2.args.headD [], args := p.2.args, env := [] }))

/-! ### The Registry (`Groups`)

From `src/groups.go`.  The launch primitive is an oracle
`spawn : Nat → Except String Nat` giving, for the n-th `Start` issued by
the operation, either a launch error or the assigned pid.  Pipe wiring,
directory creation and the output-capture files are modelled as
infallible (fresh commands and a writable filesystem), as the claims under
verification do not depend on their failure modes. -/

/-- Registry state (`src/groups.go:33-43`): the name-to-Group map and the
durable store handle. -/
structure Groups where
  groups : List (String × Group)
  store : Store
deriving DecidableEq, Repr

def emptyGroups : Groups := { groups := [], store := emptyStore }

/-- Model of `Groups.getGroup` (`src/groups.go:217-222`); `none` is Go's
`nil` map miss. -/
def Groups.getGroup (gs : Groups) (name : String) : Option Group :=
  (gs.groups.find? (fun p => p.1 == name)).map (fun p => p.2)

/-- Write `g.groups[name] = grp` under the exclusive lock. -/
def setGroupEntry (l : List (String × Group)) (name : String) (g : Group) :
    List (String × Group) :=
  if l.any (fun p => p.1 == name) then
    l.map (fun p => if p.1 == name then (name, g) else p)
  else l ++ [(name, g)]

/-- The pid assigned by a successful launch (only consulted on that path). -/
def pidOf : Except String Nat → Nat
  | .ok p => p
  | .error _ => 0

/-- Model of `startTx` (`src/groups.go:388-409`): wire the pipes, create
the group directory, attach output capture (all infallible here), then
start the command through the group. -/
def startTx (grp : Group) (c : Cmd) (launch : Except String Nat) : Except Err Group :=
  match Group.Start grp c launch with
  | (.ok _, grp2) => .ok grp2
  | (.error e, _) => .error (wrap "starting child process" e)

/-- Loop of `createTx` (`src/groups.go:154-168`): start each command, then
buffer its rows; `k` counts the launches already issued. -/
def createTxGo (spawn : Nat → Except String Nat) (groupName : String) :
    Nat → Group → Tx → List Cmd → Except Err (Group × Tx × Nat)
  | k, grp, tx, [] => .ok (grp, tx, k)
  | k, grp, tx, c :: rest =>
    match startTx grp c (spawn k) with
    | .error e => .error (wrap "starting command" e)
    | .ok grp2 =>
      match insertCmd tx groupName c (pidOf (spawn k)) with
      | .error e => .error (wrap "inserting new command" e)
      | .ok tx2 => createTxGo spawn groupName (k + 1) grp2 tx2 rest

/-- Model of `Groups.Create` (`src/groups.go:141-151`): run `createTx` in a
fresh transaction; on error roll back (the buffer is discarded and the map
was never written), on success register the group and commit. -/
def Groups.Create (gs : Groups) (groupName : String) (cmds : List Cmd)
    (spawn : Nat → Except String Nat) : Except Err Unit × Groups :=
  match createTxGo spawn groupName 0 NewGroup { pending := [] } cmds with
  | .error e => (.error e, gs)
  | .ok (grp, tx, _) =>
    (.ok (), { groups := setGroupEntry gs.groups groupName grp,
               store := tx.commit gs.store })

/-- Loop of `openTx` (`src/groups.go:335-342`). -/
def openTxGo (spawn : Nat → Except String Nat) :
    Nat → Group → List Cmd → Except Err Group
  | _, grp, [] => .ok grp
  | k, grp, c :: rest =>
    match startTx grp c (spawn k) with
    | .error e => .error e
    | .ok grp2 => openTxGo spawn (k + 1) grp2 rest

/-- Model of `Groups.Open` (`src/groups.go:314-332`): read the persisted
commands back, start them through a fresh group, register it.  The
transaction buffers no writes, so commit and rollback leave the store as
is. -/
def Groups.Open (gs : Groups) (groupName : String)
    (spawn : Nat → Except String Nat) : Outcome (Except Err (List Cmd) × Groups) :=
  match getGroupProcessesTx gs.store groupName with
  | .panics m => .panics m
  | .returns cmds =>
    match openTxGo spawn 0 NewGroup cmds with
    | .error e => .returns (.error e, gs)
    | .ok grp =>
      .returns (.ok cmds,
        { gs with groups := setGroupEntry gs.groups groupName grp })

/-- Model of `removeTx` (`src/groups.go:358-386`).  The DELETE is executed
through `g.db.Exec` — the raw connection, not the transaction — so it
takes effect immediately and is not subject to the caller's rollback.
Only then is the live group looked up; a miss is the
"group ... not found" error. -/
def Groups.removeTx (gs : Groups) (groupName : String) (cmds : List PCmd)
    (arrival : List StopEvent) : Except Err Unit × Groups :=
  let gs2 : Groups :=
    { gs with store := deleteProcessesQuery gs.store groupName (cmds.map (fun c => c.pid)) }
  match gs2.getGroup groupName with
  | none => (.error (.msg ("group " ++ groupName ++ " not found")), gs2)
  | some grp =>
    match Group.RemoveCmds grp cmds arrival with
    | (.error e, _) => (.error (wrap "removing commands from group" e), gs2)
    | (.ok _, grp2) =>
      (.ok (), { gs2 with groups := setGroupEntry gs2.groups groupName grp2 })

/-- Model of `Groups.Remove` (`src/groups.go:346-356`): `removeTx` inside a
transaction that it never writes to, so the rollback taken on error cannot
restore anything `removeTx` changed through the raw connection. -/
def Groups.Remove (gs : Groups) (groupName : String) (cmds : List PCmd)
    (arrival : List StopEvent) : Except Err Unit × Groups :=
  Groups.removeTx gs groupName cmds arrival

/-- Model of `Groups.Wait` (`src/groups.go:412-414`):
`g.getGroup(groupName).Wait(10 * time.Second)` with no nil check — when no
live group is registered, the method call dereferences the nil receiver's
`cmds` field and the Go runtime panics. -/
def Groups.Wait (gs : Groups) (groupName : String) (evs : List GEvent) :
    Outcome (Except Err Unit) :=
  match gs.getGroup groupName with
  | none => .panics "runtime error: invalid memory address or nil pointer dereference"
  | some grp => .returns (Group.Wait grp "10s" evs).1

/-! ### Concrete fixtures used by the witnesses and counterexamples -/

/-- The one-argument command `a`. -/
def cmdA : Cmd := { path := ascii "a", args := [ascii "a"], env := [] }

/-- An OS in which every signal reports the target process as already
finished (the error text Go's `os` package produces). -/
def alreadyFinOs : Os :=
  { signal := fun _ => .error "os: process already finished",
    waitFor := fun _ => .ok () }

/-- A group holding one started command with pid 1. -/
def g1 : Group := { cmds := [{ cmd := cmdA, pid := 1 }], observers := 1 }

/-- A group holding three started commands. -/
def g3 : Group :=
  { cmds := [{ cmd := cmdA, pid := 1 }, { cmd := cmdA, pid := 2 }, { cmd := cmdA, pid := 3 }],
    observers := 3 }

/-- A launch primitive that always succeeds, assigning pid `k + 1` to the
k-th launch. -/
def spawnOk : Nat → Except String Nat := fun k => .ok (k + 1)

/-! ### Claims about command identity (C6, C7, C10) -/

/-- C6 (code bug): the spec requires an empty argument list to be rejected
before identity derivation, but `GetCmdID` performs no such check: on a
command with no arguments (and no environment) it happily returns the hex
SHA-256 digest of the single separator space byte. -/
theorem GetCmdID_empty_args_returns_id :
    GetCmdID { path := [], args := [], env := [] } =
      .ok "36a9e7f1c95b82ffb99743e0c5c4ce95d83c9a430aac59f84ef3cbfab6145068" := by
  decide

/-- C7 (counterexample): the claim says permuting two distinct arguments
always changes the identifier.  The arguments `"a a"` and `"a"` are
distinct, yet both orders serialize to the same byte string
`"a a a"`, so the derived identifiers coincide. -/
theorem GetCmdID_swap_collision :
    ascii "a a" ≠ ascii "a" ∧
    GetCmdID { path := ascii "a a", args := [ascii "a a", ascii "a"], env := [] } =
      GetCmdID { path := ascii "a a", args := [ascii "a", ascii "a a"], env := [] } := by
  decide

/-- C7 (amended): identity derivation is deterministic — it is a function
of the argument and environment sequences alone — and permuting the
arguments does change the identifier when the space-joined serializations
differ, as on the example command `echo foo`. -/
theorem GetCmdID_deterministic_and_swap_example :
    (∀ c₁ c₂ : Cmd, c₁.args = c₂.args → c₁.env = c₂.env → GetCmdID c₁ = GetCmdID c₂) ∧
    GetCmdID { path := ascii "echo", args := [ascii "echo", ascii "foo"], env := [] } ≠
      GetCmdID { path := ascii "echo", args := [ascii "foo", ascii "echo"], env := [] } := by
  constructor
  · intro c₁ c₂ ha he
    unfold GetCmdID cmdIDStr cmdIDPreimage
    rw [ha, he]
  · decide

/-- Witness for the deterministic part of the amended C7: two commands that
differ only in their path derive the same identifier. -/
theorem GetCmdID_deterministic_witness :
    GetCmdID { path := ascii "/bin/echo", args := [ascii "echo", ascii "foo"],
               env := [ascii "A=1"] } =
      GetCmdID { path := ascii "echo", args := [ascii "echo", ascii "foo"],
                 env := [ascii "A=1"] } :=
  GetCmdID_deterministic_and_swap_example.1 _ _ rfl rfl

/-- C10 (confirmed): the space-separated serialization is not injective, so
two commands with distinct argument lists and identical environments can
share an identifier: `["a b"]` versus `["a", "b"]`. -/
theorem GetCmdID_distinct_args_same_id :
    [ascii "a b"] ≠ [ascii "a", ascii "b"] ∧
    GetCmdID { path := ascii "a b", args := [ascii "a b"], env := [ascii "X=1"] } =
      GetCmdID { path := ascii "a", args := [ascii "a", ascii "b"], env := [ascii "X=1"] } := by
  decide

/-! ### Claims about the Group supervisor (C4, C5, C8, C9) -/

/-- C4 (counterexample): the claim says `Stop` removes an already-exited
process from the live set just like a normal termination.  It does return
success, but the early `return nil` skips the `g.cmds = cmds` assignment:
the process stays registered. -/
theorem Stop_alreadyFinished_keeps_registration :
    (Group.Stop g1 alreadyFinOs 1).1 = .ok () ∧
    (Group.Stop g1 alreadyFinOs 1).2 = g1 ∧
    g1.cmds ≠ [] := by
  decide

/-- C4 (amended): on a registered pid whose kill signal reports
"process already finished", `Stop` returns success but leaves the group —
including its live command set — exactly unchanged; de-registration
happens only on the normal signal-then-wait path. -/
theorem Stop_alreadyFinished_success_unchanged
    (g : Group) (os : Os) (pid : Nat) (e : String)
    (hmem : g.cmds.filter (fun cc => cc.pid == pid) ≠ [])
    (hsig : os.signal pid = .error e)
    (hfin : isAlreadyFinished e = true) :
    Group.Stop g os pid = (.ok (), g) := by
  obtain ⟨c, hc⟩ : ∃ c, (g.cmds.filter (fun cc => cc.pid == pid)).getLast? = some c := by
    cases hl : (g.cmds.filter (fun cc => cc.pid == pid)).getLast? with
    | none => exact absurd (List.getLast?_eq_none_iff.mp hl) hmem
    | some c => exact ⟨c, rfl⟩
  have hcm : c ∈ g.cmds.filter (fun cc => cc.pid == pid) := by
    rw [List.getLast?_eq_getLast _ hmem] at hc
    cases hc
    exact List.getLast_mem hmem
  have hcpid : c.pid = pid := by
    simpa using (List.mem_filter.mp hcm).2
  unfold Group.Stop
  rw [hc]
  dsimp only
  rw [hcpid, hsig]
  simp [hfin]

/-- Witness for the amended C4 at a concrete group and OS. -/
theorem Stop_alreadyFinished_witness :
    Group.Stop g1 alreadyFinOs 1 = (.ok (), g1) :=
  Stop_alreadyFinished_success_unchanged g1 alreadyFinOs 1
    "os: process already finished" (by decide) rfl (by decide)

/-- C5 (code bug): `Group.Remove` in `src/group.go` with no identifiers
stops nothing and keeps the entire live set, contradicting the claim, the
package's own `TestGroupsRemoveAll`, and the `part_001` revision of the
same method (which `Groups.removeTx` actually calls). -/
theorem Remove_no_ids_keeps_all :
    (Group.Remove g1 alreadyFinOs []).1 = .ok () ∧
    (Group.Remove g1 alreadyFinOs []).2.cmds = [{ cmd := cmdA, pid := 1 }] := by
  decide

/-- C9 (confirmed): when the launch primitive fails, `Group.Start` returns
the wrapped error and the group — live command set and observer count —
is exactly what it was before the call. -/
theorem Start_launch_failure_no_registration (g : Group) (c : Cmd) (e : String) :
    Group.Start g c (.error e) = (.error (wrap "starting command" (.msg e)), g) :=
  rfl

/-- Witness for C9 at a concrete group and launch error. -/
theorem Start_launch_failure_witness :
    Group.Start g1 cmdA (.error "fork/exec a: no such file or directory") =
      (.error (wrap "starting command" (.msg "fork/exec a: no such file or directory")), g1) :=
  Start_launch_failure_no_registration g1 cmdA "fork/exec a: no such file or directory"

/-- Helper for C8: the fan-in returns the first error event, leaving the
events after it undrained. -/
theorem waitDrain_first_error (t : String) (c : Cmd) (m : String) (rest : List GEvent) :
    ∀ (pre : List GEvent) (n : Nat), (∀ ev ∈ pre, ev.isDone = true) → pre.length < n →
      Group.WaitDrain t n (pre ++ GEvent.errEv c m :: rest) = (.error (.cmdErr c m), rest)
  | [], n, _, hn => by
    cases n with
    | zero => exact absurd hn (by simp)
    | succ k => rfl
  | ev :: pre, n, hpre, hn => by
    cases n with
    | zero => exact absurd hn (by simp)
    | succ k =>
      cases ev with
      | errEv d s =>
        have h := hpre (GEvent.errEv d s) (List.mem_cons_self _ _)
        simp [GEvent.isDone] at h
      | done d =>
        have hk : pre.length < k := by simp at hn; omega
        have hpre2 : ∀ ev ∈ pre, ev.isDone = true := fun x hx => hpre x (by simp [hx])
        simpa [Group.WaitDrain] using
          waitDrain_first_error t c m rest pre k hpre2 hk

/-- Helper for C8: with only completion events available, the fan-in
consumes exactly `n` of them. -/
theorem waitDrain_all_done (t : String) :
    ∀ (n : Nat) (evs : List GEvent), (∀ ev ∈ evs, ev.isDone = true) → n ≤ evs.length →
      Group.WaitDrain t n evs = (.ok (), evs.drop n)
  | 0, evs, _, _ => by simp [Group.WaitDrain]
  | n + 1, [], _, hn => by simp at hn
  | n + 1, ev :: evs, hall, hn => by
    cases ev with
    | errEv d s =>
      have h := hall (GEvent.errEv d s) (List.mem_cons_self _ _)
      simp [GEvent.isDone] at h
    | done d =>
      have hall2 : ∀ ev ∈ evs, ev.isDone = true := fun x hx => hall x (by simp [hx])
      have hn2 : n ≤ evs.length := by simp at hn; omega
      simpa [Group.WaitDrain] using waitDrain_all_done t n evs hall2 hn2

/-- C8 (confirmed): `Group.Wait` short-circuits on the first error event —
returning the `CmdError` naming the failing command and leaving the
remaining events undrained — and otherwise drains exactly as many events
as there were commands registered when it was invoked. -/
theorem Wait_drains_registered_and_short_circuits :
    (∀ (t : String) (g : Group) (pre rest : List GEvent) (c : Cmd) (m : String),
        (∀ ev ∈ pre, ev.isDone = true) → pre.length < g.cmds.length →
        Group.Wait g t (pre ++ GEvent.errEv c m :: rest) = (.error (.cmdErr c m), rest)) ∧
    (∀ (t : String) (g : Group) (evs : List GEvent),
        (∀ ev ∈ evs, ev.isDone = true) → g.cmds.length ≤ evs.length →
        Group.Wait g t evs = (.ok (), evs.drop g.cmds.length)) :=
  ⟨fun t g pre rest c m hpre hn => waitDrain_first_error t c m rest pre _ hpre hn,
   fun t g evs hall hn => waitDrain_all_done t _ evs hall hn⟩

/-- Witness for C8 on a three-command group: an error in second position is
returned at once with the third event left undrained, and three
completions drain to exactly nothing. -/
theorem Wait_witness :
    Group.Wait g3 "10s"
        [GEvent.done cmdA, GEvent.errEv cmdA "exit status 1", GEvent.done cmdA] =
      (.error (.cmdErr cmdA "exit status 1"), [GEvent.done cmdA]) ∧
    Group.Wait g3 "10s" [GEvent.done cmdA, GEvent.done cmdA, GEvent.done cmdA] =
      (.ok (), []) :=
  ⟨Wait_drains_registered_and_short_circuits.1 "10s" g3
      [GEvent.done cmdA] [GEvent.done cmdA] cmdA "exit status 1" (by decide) (by decide),
   Wait_drains_registered_and_short_circuits.2 "10s" g3
      [GEvent.done cmdA, GEvent.done cmdA, GEvent.done cmdA] (by decide) (by decide)⟩

/-! ### Claims about the Registry (C2, C3) -/

/-- Registry state for C2: the store holds one persisted process row for
group `g`, but no live group is registered (as after a restart). -/
def c2Groups : Groups :=
  { groups := [],
    store := { processes := [{ command_id := "id0", group_name := "g", process_id := 5 }],
               command_args := [], command_env := [] } }

/-- C2 (code bug): `Groups.Remove` on a group with no live Group object
returns the "group not found" error — after which the enclosing
transaction is rolled back — yet the persisted process rows are gone,
because `removeTx` ran its DELETE through the raw connection instead of
the transaction. -/
theorem Remove_missing_group_still_mutates_store :
    (Groups.Remove c2Groups "g" [] []).1 = .error (.msg "group g not found") ∧
    (Groups.Remove c2Groups "g" [] []).2.store.processes = [] ∧
    c2Groups.store.processes ≠ [] := by
  decide

/-- C3 (code bug): `Groups.Wait` on a name with no live group does not
return a "group not found" error: it calls `Wait` on the nil `*Group`
returned by `getGroup` and the runtime panics on the nil dereference. -/
theorem Wait_missing_group_panics :
    Groups.Wait emptyGroups "echofoo" [] =
      .panics "runtime error: invalid memory address or nil pointer dereference" ∧
    ∀ e : Err, Groups.Wait emptyGroups "echofoo" [] ≠ .returns (.error e) := by
  refine ⟨rfl, ?_⟩
  intro e h
  exact Outcome.noConfusion h

/-! ### C1: the Create/Open round trip

`Create` persists each command's rows; after a simulated restart (a
registry with an empty map over the same store) `Open` reads them back
through the double LEFT JOIN and rebuilds the commands. -/

/-- The command list `Open` yields on a restarted registry over `st`, when
it neither panics nor errors. -/
def openedCmds (st : Store) (name : String) (spawn : Nat → Except String Nat) :
    Option (List Cmd) :=
  match Groups.Open { groups := [], store := st } name spawn with
  | .returns (.ok cs, _) => some cs
  | _ => none

/-- What the join hands back for a twice-created `a`: the arg rows are
picked up once per process row, quadrupling the argument. -/
def cmdA4 : Cmd :=
  { path := ascii "a", args := [ascii "a", ascii "a", ascii "a", ascii "a"], env := [] }

/-- C1 (counterexample): creating a group from two identical commands `a`
succeeds, but reopening it after a restart yields a single command with
argument list `a a a a` — the LEFT JOIN multiplies the argument rows of
the shared command id — whose derived identity differs from the one
originally persisted, so the identity sets differ. -/
theorem Create_Open_duplicate_command_changes_ids :
    (Groups.Create emptyGroups "g" [cmdA, cmdA] spawnOk).1 = .ok () ∧
    openedCmds (Groups.Create emptyGroups "g" [cmdA, cmdA] spawnOk).2.store "g" spawnOk
      = some [cmdA4] ∧
    cmdIDStr cmdA4 ≠ cmdIDStr cmdA := by
  decide

/-! Characterization helpers for the amended C1.  They restate, as closed
recursions, what the `Create` loop accumulates for a batch of env-free
commands with nonempty argument lists under an always-succeeding launch
primitive. -/

/-- The started commands `createTx` registers. -/
def pcmdsFor (spawn : Nat → Except String Nat) : Nat → List Cmd → List PCmd
  | _, [] => []
  | k, c :: rest => { cmd := c, pid := pidOf (spawn k) } :: pcmdsFor spawn (k + 1) rest

/-- The mutations `createTx` buffers. -/
def mutsFor (spawn : Nat → Except String Nat) (name : String) : Nat → List Cmd → List Mutation
  | _, [] => []
  | k, c :: rest =>
    .insertProcess { command_id := cmdIDStr c, group_name := name,
                     process_id := pidOf (spawn k) } ::
    .insertArgs (argRowsFrom (cmdIDStr c) 0 c.args) :: mutsFor spawn name (k + 1) rest

/-- The `processes` rows the commit produces. -/
def procRowsFor (spawn : Nat → Except String Nat) (name : String) : Nat → List Cmd → List ProcRow
  | _, [] => []
  | k, c :: rest =>
    { command_id := cmdIDStr c, group_name := name, process_id := pidOf (spawn k) } ::
    procRowsFor spawn name (k + 1) rest

/-- The `command_args` rows the commit produces. -/
def argRowsForAll : List Cmd → List ArgRow
  | [] => []
  | c :: rest => argRowsFrom (cmdIDStr c) 0 c.args ++ argRowsForAll rest

theorem sqlInsertCheck_processes :
    sqlInsertCheck "processes" insertCmdQueryColumns processesColumns = .ok () := rfl

theorem sqlInsertCheck_command_args :
    sqlInsertCheck "command_args" insertCmdArgsQueryColumns commandArgsColumns = .ok () := rfl

/-- `insertCmd` on an env-free command with arguments buffers exactly its
`processes` row and its argument rows. -/
theorem insertCmd_envfree (tx : Tx) (name : String) (c : Cmd) (pid : Nat)
    (hce : c.env = []) (hca : c.args ≠ []) :
    insertCmd tx name c pid =
      .ok { pending := tx.pending ++
        [.insertProcess { command_id := cmdIDStr c, group_name := name, process_id := pid },
         .insertArgs (argRowsFrom (cmdIDStr c) 0 c.args)] } := by
  unfold insertCmd
  simp only [GetCmdID]
  rw [sqlInsertCheck_processes]
  dsimp only
  rw [if_pos (List.length_pos.mpr hca)]
  unfold insertCmdArgs
  rw [sqlInsertCheck_command_args]
  dsimp only
  rw [hce]
  simp

/-- The `createTx` loop on env-free commands with arguments: registers all
of them, buffers all their rows, and advances the launch counter. -/
theorem createTxGo_ok (spawn : Nat → Except String Nat) (name : String)
    (hspawn : ∀ j, ∃ p, spawn j = .ok p) :
    ∀ (cmds : List Cmd), (∀ c ∈ cmds, c.env = []) → (∀ c ∈ cmds, c.args ≠ []) →
    ∀ (k : Nat) (grp : Group) (tx : Tx),
      createTxGo spawn name k grp tx cmds =
        .ok ({ cmds := grp.cmds ++ pcmdsFor spawn k cmds,
               observers := grp.observers + cmds.length },
             { pending := tx.pending ++ mutsFor spawn name k cmds },
             k + cmds.length) := by
  intro cmds
  induction cmds with
  | nil => intro _ _ k grp tx; simp [createTxGo, pcmdsFor, mutsFor]
  | cons c rest ih =>
    intro henv hargs k grp tx
    obtain ⟨p, hp⟩ := hspawn k
    have hce : c.env = [] := henv c (List.mem_cons_self _ _)
    have hca : c.args ≠ [] := hargs c (List.mem_cons_self _ _)
    have henv2 : ∀ x ∈ rest, x.env = [] := fun x hx => henv x (by simp [hx])
    have hargs2 : ∀ x ∈ rest, x.args ≠ [] := fun x hx => hargs x (by simp [hx])
    simp only [createTxGo, startTx, hp, Group.Start]
    rw [insertCmd_envfree _ _ _ _ hce hca]
    dsimp only
    rw [ih henv2 hargs2 (k + 1) _ _]
    simp [pcmdsFor, mutsFor, hp, pidOf, List.append_assoc]
    all_goals omega

/-- Folding the buffered mutations appends the corresponding rows. -/
theorem foldl_mutsFor (spawn : Nat → Except String Nat) (name : String) :
    ∀ (cmds : List Cmd) (k : Nat) (s : Store),
      List.foldl applyMutation s (mutsFor spawn name k cmds) =
        { processes := s.processes ++ procRowsFor spawn name k cmds,
          command_args := s.command_args ++ argRowsForAll cmds,
          command_env := s.command_env } := by
  intro cmds
  induction cmds with
  | nil => intro k s; simp [mutsFor, procRowsFor, argRowsForAll]
  | cons c rest ih =>
    intro k s
    simp only [mutsFor, List.foldl_cons, applyMutation]
    rw [ih (k + 1)]
    simp [procRowsFor, argRowsForAll, List.append_assoc]

/-- Committing the buffered mutations appends the corresponding rows. -/
theorem commit_mutsFor (spawn : Nat → Except String Nat) (name : String)
    (cmds : List Cmd) (k : Nat) (s : Store) :
    Tx.commit { pending := mutsFor spawn name k cmds } s =
      { processes := s.processes ++ procRowsFor spawn name k cmds,
        command_args := s.command_args ++ argRowsForAll cmds,
        command_env := s.command_env } :=
  foldl_mutsFor spawn name cmds k s

/-- `Groups.Create` on a fresh registry with env-free, argument-carrying
commands and a succeeding launch primitive: it succeeds and the store
holds exactly the batch's rows. -/
theorem Create_envfree_char (name : String) (cmds : List Cmd)
    (spawn : Nat → Except String Nat)
    (henv : ∀ c ∈ cmds, c.env = []) (hargs : ∀ c ∈ cmds, c.args ≠ [])
    (hspawn : ∀ j, ∃ p, spawn j = .ok p) :
    Groups.Create emptyGroups name cmds spawn =
      (.ok (), { groups := [(name, { cmds := pcmdsFor spawn 0 cmds,
                                     observers := cmds.length })],
                 store := { processes := procRowsFor spawn name 0 cmds,
                            command_args := argRowsForAll cmds,
                            command_env := [] } }) := by
  unfold Groups.Create
  rw [createTxGo_ok spawn name hspawn cmds henv hargs 0 NewGroup { pending := [] }]
  dsimp only
  rw [show ({ pending := [] ++ mutsFor spawn name 0 cmds } : Tx)
        = { pending := mutsFor spawn name 0 cmds } from by simp]
  rw [show emptyGroups.store = emptyStore from rfl]
  rw [commit_mutsFor spawn name cmds 0 emptyStore]
  simp [setGroupEntry, emptyGroups, emptyStore, NewGroup]

/-! Open-side helpers: what the LEFT JOIN and the scan loop produce on the
store `Create` left behind. -/

theorem procRowsFor_filter (spawn : Nat → Except String Nat) (name : String) :
    ∀ (cmds : List Cmd) (k : Nat),
      (procRowsFor spawn name k cmds).filter (fun p => p.group_name == name) =
        procRowsFor spawn name k cmds := by
  intro cmds
  induction cmds with
  | nil => intro k; simp [procRowsFor]
  | cons c rest ih => intro k; simp [procRowsFor, ih (k + 1)]

theorem argRowsFrom_filter_self (cid : String) :
    ∀ (args : List (List Nat)) (i : Nat),
      (argRowsFrom cid i args).filter (fun a => a.command_id == cid) =
        argRowsFrom cid i args := by
  intro args
  induction args with
  | nil => intro i; simp [argRowsFrom]
  | cons a rest ih => intro i; simp [argRowsFrom, ih (i + 1)]

theorem argRowsFrom_filter_other (cid x : String) (h : x ≠ cid) :
    ∀ (args : List (List Nat)) (i : Nat),
      (argRowsFrom cid i args).filter (fun a => a.command_id == x) = [] := by
  intro args
  induction args with
  | nil => intro i; simp [argRowsFrom]
  | cons a rest ih =>
    intro i
    simp [argRowsFrom, ih (i + 1), Ne.symm h]

theorem argRowsFrom_map_arg (cid : String) :
    ∀ (args : List (List Nat)) (i : Nat),
      (argRowsFrom cid i args).map (fun a => some a.arg) = args.map some := by
  intro args
  induction args with
  | nil => intro i; simp [argRowsFrom]
  | cons a rest ih => intro i; simp [argRowsFrom, ih (i + 1)]

theorem argRowsFrom_isEmpty_false (cid : String) (args : List (List Nat)) (i : Nat)
    (h : args ≠ []) : (argRowsFrom cid i args).isEmpty = false := by
  cases args with
  | nil => exact absurd rfl h
  | cons a rest => simp [argRowsFrom]

theorem argRowsForAll_filter_notmem (x : String) :
    ∀ (cmds : List Cmd), x ∉ cmds.map cmdIDStr →
      (argRowsForAll cmds).filter (fun a => a.command_id == x) = [] := by
  intro cmds
  induction cmds with
  | nil => intro _; simp [argRowsForAll]
  | cons c rest ih =>
    intro hx
    have hx1 : x ≠ cmdIDStr c := by simp at hx; exact hx.1
    have hx2 : x ∉ rest.map cmdIDStr := by simp at hx; simpa using hx.2
    simp [argRowsForAll, List.filter_append, argRowsFrom_filter_other _ _ hx1, ih hx2]

theorem argRowsForAll_filter_mem :
    ∀ (cmds : List Cmd) (c : Cmd), c ∈ cmds → (cmds.map cmdIDStr).Nodup →
      (argRowsForAll cmds).filter (fun a => a.command_id == cmdIDStr c) =
        argRowsFrom (cmdIDStr c) 0 c.args := by
  intro cmds
  induction cmds with
  | nil => intro c hc; exact absurd hc (by simp)
  | cons d rest ih =>
    intro c hc hnd
    have hd1 : cmdIDStr d ∉ rest.map cmdIDStr := (List.nodup_cons.mp hnd).1
    have hd2 : (rest.map cmdIDStr).Nodup := (List.nodup_cons.mp hnd).2
    rcases List.mem_cons.mp hc with hcd | hcr
    · subst hcd
      simp [argRowsForAll, List.filter_append, argRowsFrom_filter_self,
        argRowsForAll_filter_notmem _ _ hd1]
    · have hne : cmdIDStr c ≠ cmdIDStr d := by
        intro he
        exact hd1 (he ▸ List.mem_map_of_mem cmdIDStr hcr)
      simp [argRowsForAll, List.filter_append,
        argRowsFrom_filter_other _ _ hne, ih c hcr hd2]

/-- The row stream the join produces on the created store: one block per
command, each row carrying the command id, one argument, and a NULL
environment column. -/
def rowBlocksFor : List Cmd → List (String × Option (List Nat) × Option (List Nat))
  | [] => []
  | c :: rest => c.args.map (fun a => (cmdIDStr c, some a, none)) ++ rowBlocksFor rest

theorem map_some_flatMap_pair (cid : String) (l : List (List Nat)) :
    (l.map some).flatMap
        (fun a => [(cid, a, (none : Option (List Nat)))]) =
      l.map (fun a => (cid, some a, none)) := by
  induction l with
  | nil => simp
  | cons a rest ih => simp [ih]

theorem joinRows_blocks (ca : List ArgRow) (name : String)
    (spawn : Nat → Except String Nat) :
    ∀ (sub : List Cmd) (k : Nat),
      (∀ c ∈ sub, ca.filter (fun a => a.command_id == cmdIDStr c) =
          argRowsFrom (cmdIDStr c) 0 c.args) →
      (∀ c ∈ sub, c.args ≠ []) →
      joinRows { processes := procRowsFor spawn name k sub,
                 command_args := ca, command_env := [] } name = rowBlocksFor sub := by
  intro sub
  induction sub with
  | nil => intro k _ _; simp [joinRows, procRowsFor, rowBlocksFor]
  | cons c rest ih =>
    intro k hca hargs
    have hcah : ca.filter (fun a => a.command_id == cmdIDStr c) =
        argRowsFrom (cmdIDStr c) 0 c.args := hca c (List.mem_cons_self _ _)
    have hargh : c.args ≠ [] := hargs c (List.mem_cons_self _ _)
    have hca2 : ∀ x ∈ rest, ca.filter (fun a => a.command_id == cmdIDStr x) =
        argRowsFrom (cmdIDStr x) 0 x.args := fun x hx => hca x (by simp [hx])
    have hargs2 : ∀ x ∈ rest, x.args ≠ [] := fun x hx => hargs x (by simp [hx])
    have ihr := ih (k + 1) hca2 hargs2
    simp only [joinRows, procRowsFor] at ihr ⊢
    rw [List.filter_cons_of_pos (by simp)]
    rw [List.flatMap_cons]
    rw [ihr]
    dsimp only
    rw [hcah, argRowsFrom_isEmpty_false _ _ _ hargh]
    simp only [Bool.false_eq_true, if_false, List.filter_nil, List.isEmpty_nil, if_true]
    rw [argRowsFrom_map_arg]
    simp only [List.map_cons, List.map_nil]
    rw [map_some_flatMap_pair]
    simp [rowBlocksFor]

theorem assocUpdate_append_last (m : List (String × AccCmd)) (k : String)
    (acc : AccCmd) (f : AccCmd → AccCmd)
    (hall : ∀ p ∈ m, (p.1 == k) = false) :
    assocUpdate (m ++ [(k, acc)]) k f = m ++ [(k, f acc)] := by
  unfold assocUpdate
  rw [List.map_append]
  congr 1
  · calc m.map (fun p => if p.1 == k then (p.1, f p.2) else p)
        = m.map id := List.map_congr_left (fun p hp => by simp [hall p hp])
      _ = m := List.map_id m
  · simp

theorem collectStep_new (m : List (String × AccCmd)) (k : String) (a : List Nat)
    (h : m.any (fun p => p.1 == k) = false) :
    collectStep m (k, some a, none) = m ++ [(k, { args := [a], env := [] })] := by
  have hall : ∀ p ∈ m, (p.1 == k) = false :=
    fun p hp => Bool.eq_false_iff.mpr (List.any_eq_false.mp h p hp)
  unfold collectStep
  rw [h]
  rw [if_neg Bool.false_ne_true]
  rw [assocUpdate_append_last m k _ _ hall]
  simp

theorem collectStep_last (m : List (String × AccCmd)) (k : String)
    (acc : AccCmd) (a : List Nat)
    (hall : ∀ p ∈ m, (p.1 == k) = false) :
    collectStep (m ++ [(k, acc)]) (k, some a, none) =
      m ++ [(k, { args := acc.args ++ [a], env := acc.env })] := by
  unfold collectStep
  have hany : (m ++ [(k, acc)]).any (fun p => p.1 == k) = true := by simp
  rw [hany]
  rw [if_pos rfl]
  rw [assocUpdate_append_last m k _ _ hall]
  simp

theorem foldl_collect_block (k : String) :
    ∀ (args : List (List Nat)) (m : List (String × AccCmd)) (acc : AccCmd),
      (∀ p ∈ m, (p.1 == k) = false) →
      List.foldl collectStep (m ++ [(k, acc)])
          (args.map (fun a => (k, some a, none))) =
        m ++ [(k, { args := acc.args ++ args, env := acc.env })] := by
  intro args
  induction args with
  | nil => intro m acc _; simp
  | cons a rest ih =>
    intro m acc hall
    simp only [List.map_cons, List.foldl_cons]
    rw [collectStep_last m k acc a hall]
    rw [ih m _ hall]
    simp

theorem foldl_collect_first (k : String) (args : List (List Nat)) (h : args ≠ [])
    (m : List (String × AccCmd)) (hall : ∀ p ∈ m, (p.1 == k) = false) :
    List.foldl collectStep m (args.map (fun a => (k, some a, none))) =
      m ++ [(k, { args := args, env := [] })] := by
  cases args with
  | nil => exact absurd rfl h
  | cons a rest =>
    simp only [List.map_cons, List.foldl_cons]
    rw [collectStep_new m k a (List.any_eq_false.mpr (by
      intro p hp
      simp [hall p hp]))]
    rw [foldl_collect_block k rest m _ hall]
    simp

theorem collectRows_blocks :
    ∀ (cmds : List Cmd) (m : List (String × AccCmd)),
      (∀ c ∈ cmds, ∀ p ∈ m, (p.1 == cmdIDStr c) = false) →
      (cmds.map cmdIDStr).Nodup →
      (∀ c ∈ cmds, c.args ≠ []) →
      List.foldl collectStep m (rowBlocksFor cmds) =
        m ++ cmds.map (fun c => (cmdIDStr c, { args := c.args, env := [] })) := by
  intro cmds
  induction cmds with
  | nil => intro m _ _ _; simp [rowBlocksFor]
  | cons c rest ih =>
    intro m hm hnd hargs
    have hd1 : cmdIDStr c ∉ rest.map cmdIDStr := (List.nodup_cons.mp hnd).1
    have hd2 : (rest.map cmdIDStr).Nodup := (List.nodup_cons.mp hnd).2
    have hargh : c.args ≠ [] := hargs c (List.mem_cons_self _ _)
    simp only [rowBlocksFor, List.foldl_append]
    rw [foldl_collect_first (cmdIDStr c) c.args hargh m
      (hm c (List.mem_cons_self _ _))]
    have hA : ∀ x ∈ rest, ∀ p ∈ m ++ [(cmdIDStr c, ({ args := c.args, env := [] } : AccCmd))],
        (p.1 == cmdIDStr x) = false := by
      intro x hx p hp
      rcases List.mem_append.mp hp with hpm | hpe
      · exact hm x (by simp [hx]) p hpm
      · have hpe2 : p = (cmdIDStr c, ({ args := c.args, env := [] } : AccCmd)) := by
          simpa using hpe
        rw [hpe2]
        apply Bool.eq_false_iff.mpr
        intro hbeq
        have heq : cmdIDStr c = cmdIDStr x := by
          have hb := beq_iff_eq.mp hbeq
          simpa using hb
        exact hd1 (heq ▸ List.mem_map_of_mem cmdIDStr hx)
    have hrec := ih (m ++ [(cmdIDStr c, ({ args := c.args, env := [] } : AccCmd))])
      hA hd2 (fun x hx => hargs x (by simp [hx]))
    rw [hrec]
    simp

theorem openTxGo_ok (spawn2 : Nat → Except String Nat)
    (hspawn2 : ∀ j, ∃ p, spawn2 j = .ok p) :
    ∀ (cs : List Cmd) (k : Nat) (grp : Group),
      ∃ grp2, openTxGo spawn2 k grp cs = .ok grp2 := by
  intro cs
  induction cs with
  | nil => intro k grp; exact ⟨grp, rfl⟩
  | cons c rest ih =>
    intro k grp
    obtain ⟨p, hp⟩ := hspawn2 k
    simp only [openTxGo, startTx, hp, Group.Start]
    exact ih (k + 1) _

/-- C1 (amended): for a group created on a fresh store — which in this code
requires every command to carry an empty environment, since the
environment INSERT names a nonexistent column — with nonempty argument
lists and pairwise distinct derived identities, under a launch primitive
that succeeds both times: `Create` succeeds, and after a simulated restart
`Open` succeeds and yields commands whose derived identities form the same
set as those of the commands originally persisted. -/
theorem Create_Open_roundtrip_ids
    (name : String) (cmds : List Cmd) (spawn spawn2 : Nat → Except String Nat)
    (henv : ∀ c ∈ cmds, c.env = [])
    (hargs : ∀ c ∈ cmds, c.args ≠ [])
    (hids : (cmds.map cmdIDStr).Nodup)
    (hspawn : ∀ j, ∃ p, spawn j = .ok p)
    (hspawn2 : ∀ j, ∃ p, spawn2 j = .ok p) :
    (Groups.Create emptyGroups name cmds spawn).1 = .ok () ∧
    ∃ cmds2 gs2,
      Groups.Open
          { groups := [], store := (Groups.Create emptyGroups name cmds spawn).2.store }
          name spawn2 = .returns (.ok cmds2, gs2) ∧
      ∀ x, x ∈ cmds2.map cmdIDStr ↔ x ∈ cmds.map cmdIDStr := by
  have hchar := Create_envfree_char name cmds spawn henv hargs hspawn
  have hstore : (Groups.Create emptyGroups name cmds spawn).2.store =
      { processes := procRowsFor spawn name 0 cmds,
        command_args := argRowsForAll cmds, command_env := [] } := by rw [hchar]
  refine ⟨by rw [hchar], ?_⟩
  rw [hstore]
  have hjoin : joinRows
      { processes := procRowsFor spawn name 0 cmds,
        command_args := argRowsForAll cmds, command_env := [] } name = rowBlocksFor cmds :=
    joinRows_blocks (argRowsForAll cmds) name spawn cmds 0
      (fun c hc => argRowsForAll_filter_mem cmds c hc hids) hargs
  have hcollect : collectRows (rowBlocksFor cmds) =
      cmds.map (fun c => (cmdIDStr c, ({ args := c.args, env := [] } : AccCmd))) := by
    have h := collectRows_blocks cmds [] (by intro c hc p hp; simp at hp) hids hargs
    simpa [collectRows] using h
  have hget : getGroupProcessesTx
      { processes := procRowsFor spawn name 0 cmds,
        command_args := argRowsForAll cmds, command_env := [] } name =
      .returns (cmds.map
        (fun c => ({ path := c.args.headD [], args := c.args, env := [] } : Cmd))) := by
    unfold getGroupProcessesTx
    rw [hjoin, hcollect]
    have hany : (cmds.map
        (fun c => (cmdIDStr c, ({ args := c.args, env := [] } : AccCmd)))).any
          (fun p => p.2.args.isEmpty) = false := by
      apply List.any_eq_false.mpr
      intro p hp
      obtain ⟨c, hc, hrfl⟩ := List.mem_map.mp hp
      rw [← hrfl]
      simpa [List.isEmpty_iff] using hargs c hc
    dsimp only
    rw [hany]
    rw [if_neg Bool.false_ne_true]
    rw [List.map_map]
    rfl
  obtain ⟨grp2, hgrp2⟩ := openTxGo_ok spawn2 hspawn2
    (cmds.map (fun c => ({ path := c.args.headD [], args := c.args, env := [] } : Cmd)))
    0 NewGroup
  refine ⟨cmds.map (fun c => ({ path := c.args.headD [], args := c.args, env := [] } : Cmd)),
    { groups := setGroupEntry [] name grp2,
      store := { processes := procRowsFor spawn name 0 cmds,
                 command_args := argRowsForAll cmds, command_env := [] } }, ?_, ?_⟩
  · unfold Groups.Open
    dsimp only
    rw [hget]
    dsimp only
    rw [hgrp2]
  · have hmapeq : (cmds.map
        (fun c => ({ path := c.args.headD [], args := c.args, env := [] } : Cmd))).map
          cmdIDStr = cmds.map cmdIDStr := by
      rw [List.map_map]
      apply List.map_congr_left
      intro c hc
      simp [Function.comp, cmdIDStr, cmdIDPreimage, henv c hc]
    intro x
    rw [hmapeq]

/-- The test suite's `echo foo` command. -/
def cEcho : Cmd := { path := ascii "echo", args := [ascii "echo", ascii "foo"], env := [] }

/-- Witness for the amended C1 on the test suite's `echofoo` group. -/
theorem Create_Open_roundtrip_witness :
    (Groups.Create emptyGroups "echofoo" [cEcho] spawnOk).1 = .ok () ∧
    ∃ cmds2 gs2,
      Groups.Open
          { groups := [],
            store := (Groups.Create emptyGroups "echofoo" [cEcho] spawnOk).2.store }
          "echofoo" spawnOk = .returns (.ok cmds2, gs2) ∧
      ∀ x, x ∈ cmds2.map cmdIDStr ↔ x ∈ [cEcho].map cmdIDStr :=
  Create_Open_roundtrip_ids "echofoo" [cEcho] spawnOk spawnOk
    (by decide) (by decide) (by simp) (fun j => ⟨j + 1, rfl⟩) (fun j => ⟨j + 1, rfl⟩)

end Exec
